import Mathlib

/-!
A shallow embedding, in Lean 4, of the geometric core of the
`cim-domain-conceptualspaces` crate, together with proofs of the behavioural
properties stated in its specification.

Modelling conventions, used uniformly below:

* Rust `f64` values are modeled as exact rationals (`ℚ`).  The verified
  properties are about control flow, length checks, ordering of computed
  distances and algebraic identities, none of which depend on rounding.
* `f64::sqrt` is modeled by `Rat.sqrt` (which agrees with the real square
  root on perfect squares); no verified statement depends on its values.
* The Minkowski exponent `minkowski_p` (an `f64` in the source, used as
  `x.powf(p)` and `x.powf(1.0/p)`) is modeled as a natural exponent, and the
  final `powf(1.0/p)` root — irrational in general, hence not expressible on
  `ℚ` — is abstracted as an explicit function argument `root : ℚ → ℚ`.  Every
  theorem below is proved for an arbitrary `root`, which is sound because the
  source's root `x ↦ x^(1/p)` is one particular choice and all claimed
  properties are independent of it.
* `uuid::Uuid` is modeled as `Nat`: the source only ever compares ids for
  equality and order (`<`), and generates fresh ones with `Uuid::new_v4()`.
  Random generation is modeled by passing the fresh id as an explicit
  argument to the operations that call `Uuid::new_v4()`.
* `HashMap<K, V>` (and the point/region maps of a space) are modeled as
  association lists; `insert` replaces the value of an existing key in place
  and appends otherwise, mirroring `HashMap::insert`.  Iteration over entries
  or values follows the list order, a fixed enumeration of the map.
* Rust `Result<T, ConceptualError>` is `Except`; `?` is monadic bind.
-/

set_option allowUnsafeReducibility true

attribute [local semireducible] Rat.add Rat.mul Rat.inv Rat.div Rat.sub Rat.neg Rat.blt

namespace CSpace

/-- Identifier type standing for `uuid::Uuid`; the source only compares ids for
equality and order, so natural numbers suffice. -/
abbrev Uuid := Nat

/-- Identifier of a quality dimension (`DimensionId` in `src/space.rs`, a wrapped Uuid). -/
abbrev DimensionId := Nat

/-- Error kinds of `ConceptualError` (`src/lib.rs`).  The `String`/`DomainError`
payloads carried by the source are omitted: only the constructor is ever
inspected by the verified properties. -/
inductive ConceptualError where
  | invalidDimension
  | invalidPoint
  | invalidMorphism
  | projectionError
  | domainError
deriving Repr, DecidableEq

/-- Result alias `ConceptualResult<T>` (`src/lib.rs`). -/
abbrev ConceptualResult (α : Type) := Except ConceptualError α

/-- Decidable equality for `Except`, so that witnesses evaluate by `decide`. -/
instance {ε α : Type} [DecidableEq ε] [DecidableEq α] : DecidableEq (Except ε α) := fun x y =>
  match x, y with
  | .error e, .error e' => decidable_of_iff (e = e') (by simp)
  | .ok a, .ok a' => decidable_of_iff (a = a') (by simp)
  | .error _, .ok _ => isFalse (by simp)
  | .ok _, .error _ => isFalse (by simp)

/-- Association-list model of `HashMap::insert`: replace the value of an existing
key in place, append a new binding otherwise. -/
def insertAssoc {κ α : Type} [DecidableEq κ] : List (κ × α) → κ → α → List (κ × α)
  | [], k, v => [(k, v)]
  | (k', v') :: t, k, v => if k' = k then (k, v) :: t else (k', v') :: insertAssoc t k v

/-- Association-list model of `HashMap::get`. -/
def lookupAssoc {κ α : Type} [DecidableEq κ] : List (κ × α) → κ → Option α
  | [], _ => none
  | (k', v') :: t, k => if k' = k then some v' else lookupAssoc t k

/-- Truncation toward zero, the integer part used by Rust's `%` on floats:
on a reduced fraction, numerator divided by denominator, rounding toward zero. -/
def truncQ (q : ℚ) : ℤ := q.num.tdiv q.den

/-- Rust's `%` remainder on `f64`: `a - b * trunc(a / b)`, whose sign follows the
dividend `a` (it is not the wrapping, always-nonnegative modulo). -/
def rustRem (a b : ℚ) : ℚ := a - b * (truncQ (a / b) : ℚ)

/-- The `nalgebra` dot product of two coordinate vectors.  The source panics on a
length mismatch; every verified statement evaluates it only at equal lengths. -/
def dotQ (a b : List ℚ) : ℚ := (List.zipWith (· * ·) a b).sum

/-- A point of the space: `ConceptualPoint` (`src/space.rs`). -/
structure ConceptualPoint where
  coordinates : List ℚ
  dimension_map : List (DimensionId × Nat)
  id : Option Uuid
deriving Repr, DecidableEq

/-- Constructor `ConceptualPoint::new`; the source assigns `id = Some(Uuid::new_v4())`,
modeled by the explicit `fresh` argument. -/
def ConceptualPoint.new (coordinates : List ℚ) (dimension_map : List (DimensionId × Nat))
    (fresh : Uuid) : ConceptualPoint :=
  { coordinates := coordinates, dimension_map := dimension_map, id := some fresh }

/-- Weighted Minkowski distance `ConceptualPoint::weighted_distance` (`src/space.rs`):
both length checks, then `(Σ wᵢ·|aᵢ−bᵢ|^p)` under the abstracted final root
(see the module comment about `root` and `p`). -/
def ConceptualPoint.weighted_distance (root : ℚ → ℚ) (self other : ConceptualPoint)
    (weights : List ℚ) (p : Nat) : ConceptualResult ℚ :=
  if self.coordinates.length ≠ other.coordinates.length then
    .error .invalidPoint
  else if weights.length ≠ self.coordinates.length then
    .error .invalidDimension
  else
    .ok (root ((List.zipWith (fun (ab : ℚ × ℚ) w => w * |ab.1 - ab.2| ^ p)
      (List.zipWith Prod.mk self.coordinates other.coordinates) weights).sum))

/-- A separating hyperplane (`Hyperplane`, duplicated identically in `src/space.rs`
and `src/value_objects/convex_region.rs`). -/
structure Hyperplane where
  normal : List ℚ
  offset : ℚ
deriving Repr, DecidableEq

/-- Signed distance `Hyperplane::signed_distance`: `normal · point − offset`. -/
def Hyperplane.signed_distance (h : Hyperplane) (point : ConceptualPoint) : ℚ :=
  dotQ h.normal point.coordinates - h.offset

/-- Positive-side test `Hyperplane::contains_positive`: `signed_distance ≥ 0`. -/
def Hyperplane.contains_positive (h : Hyperplane) (point : ConceptualPoint) : Bool :=
  decide (0 ≤ h.signed_distance point)

/-- A convex region (`ConvexRegion`).  The source has two structurally identical
copies, in `src/space.rs` (no `description` field) and in
`src/value_objects/convex_region.rs`; their `contains`/`is_convex`/`from_prototype`
bodies coincide, so one structure embeds both. -/
structure ConvexRegion where
  id : Uuid
  prototype : ConceptualPoint
  boundaries : List Hyperplane
  member_points : List Uuid
  name : Option String
  description : Option String
deriving Repr, DecidableEq

/-- Constructor `ConvexRegion::from_prototype`; `Uuid::new_v4()` is the explicit
`fresh` argument. -/
def ConvexRegion.from_prototype (prototype : ConceptualPoint) (fresh : Uuid) : ConvexRegion :=
  { id := fresh, prototype := prototype, boundaries := [], member_points := [],
    name := none, description := none }

/-- Membership test `ConvexRegion::contains`: positive side of all boundaries. -/
def ConvexRegion.contains (r : ConvexRegion) (point : ConceptualPoint) : Bool :=
  r.boundaries.all fun plane => plane.contains_positive point

/-- Linear interpolation `ConvexRegion::interpolate_points`:
`p1 * (1 − t) + p2 * t` coordinate-wise, keeping `p1`'s dimension map, no id. -/
def ConvexRegion.interpolate_points (_r : ConvexRegion) (p1 p2 : ConceptualPoint)
    (t : ℚ) : ConceptualPoint :=
  { coordinates := List.zipWith (fun a b => a * (1 - t) + b * t) p1.coordinates p2.coordinates,
    dimension_map := p1.dimension_map, id := none }

/-- The ordered pairs `(l[i], l[j])` with `i < j`, in the iteration order of the
two nested loops of `ConvexRegion::is_convex`. -/
def upperPairs {α : Type} : List α → List (α × α)
  | [] => []
  | x :: t => t.map (fun y => (x, y)) ++ upperPairs t

/-- Sampling convexity check `ConvexRegion::is_convex`: every pair of sample
points, interpolated at `t ∈ {0.25, 0.5, 0.75}`, must pass `contains`. -/
def ConvexRegion.is_convex (r : ConvexRegion) (sample_points : List ConceptualPoint) : Bool :=
  (upperPairs sample_points).all fun pq =>
    ([(1 : ℚ)/4, 1/2, 3/4]).all fun t =>
      r.contains (r.interpolate_points pq.1 pq.2 t)

/-- Per-dimension weight (`DimensionWeight`, duplicated identically in
`src/space.rs` and `src/value_objects/dimension_weight.rs`). -/
inductive DimensionWeight where
  | constant (w : ℚ)
  | contextual (base_weight : ℚ) (context_modifiers : List (String × ℚ))
  | attentional (current_weight min_weight max_weight : ℚ)
deriving Repr, DecidableEq

/-- Current value `DimensionWeight::value`: constants ignore the context,
contextual weights fall back to the base weight, attentional weights report
their current weight. -/
def DimensionWeight.value : DimensionWeight → Option String → ℚ
  | .constant w, _ => w
  | .contextual base mods, ctx => ((ctx.bind fun c => lookupAssoc mods c)).getD base
  | .attentional cur _ _, _ => cur

/-- Metric of a space (`ConceptualMetric`, `src/space.rs`); see the module
comment for the modelling of `minkowski_p`. -/
structure ConceptualMetric where
  dimension_weights : List DimensionWeight
  minkowski_p : Nat
  current_context : Option String
deriving Repr, DecidableEq

/-- Weight extraction `ConceptualMetric::get_weights`. -/
def ConceptualMetric.get_weights (m : ConceptualMetric) : List ℚ :=
  m.dimension_weights.map fun w => w.value m.current_context

/-- Distance `ConceptualMetric::distance`, delegating to `weighted_distance`. -/
def ConceptualMetric.distance (root : ℚ → ℚ) (m : ConceptualMetric)
    (p1 p2 : ConceptualPoint) : ConceptualResult ℚ :=
  p1.weighted_distance root p2 m.get_weights m.minkowski_p

/-- Distance metric selector `DistanceMetric` (`src/dimensions.rs`). -/
inductive DistanceMetric where
  | euclidean
  | manhattan
  | weightedEuclidean (weights : List ℚ)
  | cosine
  | custom (name : String)
deriving Repr, DecidableEq

/-- Distance computation `DistanceMetric::calculate` (`src/dimensions.rs`): the
dimensionality check first, then the per-variant formula.  `f64::sqrt` (the
`nalgebra` norm and the weighted-Euclidean root) is modeled by `Rat.sqrt`;
no verified statement depends on the returned value of a square root, and
`Rat.sqrt s = 0` exactly when the summed squares are `0`, so the cosine
zero-vector guard is faithful. -/
def DistanceMetric.calculate (m : DistanceMetric) (a b : ConceptualPoint) :
    ConceptualResult ℚ :=
  if a.coordinates.length ≠ b.coordinates.length then
    .error .invalidPoint
  else
    match m with
    | .euclidean =>
        .ok (Rat.sqrt ((List.zipWith (fun x y => (x - y) ^ 2) a.coordinates b.coordinates).sum))
    | .manhattan =>
        .ok ((List.zipWith (fun x y => |x - y|) a.coordinates b.coordinates).sum)
    | .weightedEuclidean weights =>
        if weights.length ≠ a.coordinates.length then
          .error .invalidDimension
        else
          .ok (Rat.sqrt ((List.zipWith (fun (xy : ℚ × ℚ) w => w * (xy.1 - xy.2) ^ 2)
            (List.zipWith Prod.mk a.coordinates b.coordinates) weights).sum))
    | .cosine =>
        let norm_a := Rat.sqrt (dotQ a.coordinates a.coordinates)
        let norm_b := Rat.sqrt (dotQ b.coordinates b.coordinates)
        if norm_a = 0 ∨ norm_b = 0 then
          .error .invalidPoint
        else
          .ok (1 - dotQ a.coordinates b.coordinates / (norm_a * norm_b))
    | .custom _ =>
        .error .invalidDimension

/-- Comparison used for every `sort_by` on `(id, distance)` pairs: ascending in
the second component.  The source sorts with `partial_cmp`, total on the
rational model. -/
abbrev sndLe {β : Type} (a b : β × ℚ) : Prop := a.2 ≤ b.2

instance {β : Type} : DecidableRel (@sndLe β) := fun a b => inferInstanceAs (Decidable (a.2 ≤ b.2))

instance {β : Type} : IsTotal (β × ℚ) sndLe := ⟨fun a b => le_total a.2 b.2⟩

instance {β : Type} : IsTrans (β × ℚ) sndLe := ⟨fun _ _ _ h1 h2 => le_trans h1 h2⟩

/-- Stand-in for Rust's stable `sort_by` on distance pairs, as an insertion sort.
All verified properties (sortedness, permutation) are tie-break independent. -/
def sortByDistance {β : Type} (l : List (β × ℚ)) : List (β × ℚ) :=
  List.insertionSort sndLe l

/-- The linear-scan index `RTreeIndex` (`src/spatial_index.rs`). -/
structure RTreeIndex where
  points : List ConceptualPoint
  metric : DistanceMetric
deriving Repr, DecidableEq

/-- Constructor `RTreeIndex::new`. -/
def RTreeIndex.new (metric : DistanceMetric) : RTreeIndex :=
  { points := [], metric := metric }

/-- `<RTreeIndex as SpatialIndex>::insert`: push at the end, never fails. -/
def RTreeIndex.insert (idx : RTreeIndex) (point : ConceptualPoint) :
    ConceptualResult Unit × RTreeIndex :=
  (.ok (), { idx with points := idx.points ++ [point] })

/-- `<RTreeIndex as SpatialIndex>::k_nearest_neighbors`: keeps, via
`filter_map` + `.ok()`, only the identified points whose distance computation
succeeds, sorts ascending, truncates to `k`.  A failing distance is silently
dropped, and the overall result is always `Ok`. -/
def RTreeIndex.k_nearest_neighbors (idx : RTreeIndex) (query : ConceptualPoint)
    (k : Nat) : ConceptualResult (List (Uuid × ℚ)) :=
  .ok ((sortByDistance (idx.points.filterMap fun point =>
    match point.id with
    | some i => (idx.metric.calculate query point).toOption.map fun d => (i, d)
    | none => none)).take k)

/-- Loop body of `<RTreeIndex as SpatialIndex>::range_search`: iterate the stored
points in order, propagate (`?`) any distance error, collect ids within the
radius (inclusive). -/
def rangeLoop (metric : DistanceMetric) (center : ConceptualPoint) (radius : ℚ) :
    List ConceptualPoint → List Uuid → ConceptualResult (List Uuid)
  | [], acc => .ok acc
  | point :: rest, acc =>
    match point.id with
    | none => rangeLoop metric center radius rest acc
    | some i =>
      match metric.calculate center point with
      | .error e => .error e
      | .ok d =>
        rangeLoop metric center radius rest (if d ≤ radius then acc ++ [i] else acc)

/-- `<RTreeIndex as SpatialIndex>::range_search`. -/
def RTreeIndex.range_search (idx : RTreeIndex) (center : ConceptualPoint) (radius : ℚ) :
    ConceptualResult (List Uuid) :=
  rangeLoop idx.metric center radius idx.points []

/-- KD-tree nodes: `Option<Box<KdTreeNode>>` is modeled as a tree with an explicit
`leaf` constructor standing for `None` (`src/spatial_index.rs`). -/
inductive KdTree where
  | leaf
  | node (point : ConceptualPoint) (split_dim : Nat) (left right : KdTree)
deriving Repr, DecidableEq

/-- The balanced-partition index `KdTreeIndex` (`src/spatial_index.rs`). -/
structure KdTreeIndex where
  root : KdTree
  dimensions : Nat
  metric : DistanceMetric
  point_count : Nat
deriving Repr, DecidableEq

/-- Constructor `KdTreeIndex::new`. -/
def KdTreeIndex.new (dimensions : Nat) (metric : DistanceMetric) : KdTreeIndex :=
  { root := .leaf, dimensions := dimensions, metric := metric, point_count := 0 }

/-- Recursive insertion `KdTreeIndex::insert_recursive`: descend left on a
strictly smaller coordinate in the split dimension (missing coordinates read
as `0`, mirroring `get(split_dim).unwrap_or(&0.0)`). -/
def kdInsertRec (dimensions : Nat) (point : ConceptualPoint) :
    KdTree → Nat → KdTree
  | .leaf, depth => .node point (depth % dimensions) .leaf .leaf
  | .node q sd l r, depth =>
    let split_dim := depth % dimensions
    let point_val := point.coordinates.getD split_dim 0
    let node_val := q.coordinates.getD split_dim 0
    if point_val < node_val then
      .node q sd (kdInsertRec dimensions point l (depth + 1)) r
    else
      .node q sd l (kdInsertRec dimensions point r (depth + 1))

/-- `<KdTreeIndex as SpatialIndex>::insert`. -/
def KdTreeIndex.insert (idx : KdTreeIndex) (point : ConceptualPoint) :
    ConceptualResult Unit × KdTreeIndex :=
  (.ok (), { idx with root := kdInsertRec idx.dimensions point idx.root 0,
                      point_count := idx.point_count + 1 })

/-- All points stored in a KD-tree, in prefix order. -/
def KdTree.points : KdTree → List ConceptualPoint
  | .leaf => []
  | .node p _ l r => p :: (l.points ++ r.points)

/-- The `BinaryHeap<KdNeighbor>` of the KD-tree search, a max-heap on distance,
modeled as a list sorted descending by distance whose head is the worst
current neighbor.  `peek` is `head?`, `pop` drops the head, `push` inserts in
order.  All verified statements are independent of tie-break order. -/
def heapPush (best : List (Uuid × ℚ)) (x : Uuid × ℚ) : List (Uuid × ℚ) :=
  List.orderedInsert (fun a b : Uuid × ℚ => b.2 ≤ a.2) x best

/-- The neighbor-set update of `search_knn_recursive`: fill up to `k`, then
replace the worst neighbor when strictly closer. -/
def knnUpdate (best : List (Uuid × ℚ)) (k : Nat) (i : Uuid) (d : ℚ) : List (Uuid × ℚ) :=
  if best.length < k then
    heapPush best (i, d)
  else
    match best.head? with
    | some worst => if d < worst.2 then heapPush (best.tail) (i, d) else best
    | none => best

/-- The far-child pruning test of `search_knn_recursive`:
`best.len() < k || best.peek().map(|n| dimension_distance < n.distance).unwrap_or(true)`. -/
def knnDescendFar (best : List (Uuid × ℚ)) (k : Nat) (dimension_distance : ℚ) : Bool :=
  best.length < k || (match best.head? with
    | some n => decide (dimension_distance < n.2)
    | none => true)

/-- Recursive k-NN search `KdTreeIndex::search_knn_recursive`: visit the node
(propagating any distance error), descend into the near child, and prune the
far child using the split-dimension gap against the current worst distance.
The source binds `(near_child, far_child)` once from the comparison
`query_val < node_val`; here the two symmetric branches are written out so the
recursion is structural. -/
def searchKnn (dimensions : Nat) (metric : DistanceMetric) (query : ConceptualPoint)
    (k : Nat) : KdTree → List (Uuid × ℚ) → Nat → ConceptualResult (List (Uuid × ℚ))
  | .leaf, best, _ => .ok best
  | .node p _ l r, best, depth => do
    let best ← match p.id with
      | some i =>
        match metric.calculate query p with
        | .error e => .error e
        | .ok d => pure (knnUpdate best k i d)
      | none => pure best
    let split_dim := depth % dimensions
    let query_val := query.coordinates.getD split_dim 0
    let node_val := p.coordinates.getD split_dim 0
    let dimension_distance := |query_val - node_val|
    if query_val < node_val then do
      let best ← searchKnn dimensions metric query k l best (depth + 1)
      if knnDescendFar best k dimension_distance then
        searchKnn dimensions metric query k r best (depth + 1)
      else
        pure best
    else do
      let best ← searchKnn dimensions metric query k r best (depth + 1)
      if knnDescendFar best k dimension_distance then
        searchKnn dimensions metric query k l best (depth + 1)
      else
        pure best

/-- `<KdTreeIndex as SpatialIndex>::k_nearest_neighbors`: run the recursive
search from the root, then pop the heap (worst first) and reverse, yielding
ascending distances. -/
def KdTreeIndex.k_nearest_neighbors (idx : KdTreeIndex) (query : ConceptualPoint)
    (k : Nat) : ConceptualResult (List (Uuid × ℚ)) := do
  match idx.root with
  | .leaf => pure []
  | t => do
    let best ← searchKnn idx.dimensions idx.metric query k t [] 0
    pure best.reverse

/-- Recursive range search `KdTreeIndex::search_range_recursive`: visit the node
(propagating any distance error), recurse into both children when the split
plane is within the radius, else only into the center's side (the source's
single `if center_val < node_val { left } else { right }` selection is written
as two direct branches so the recursion is structural). -/
def searchRange (dimensions : Nat) (metric : DistanceMetric) (center : ConceptualPoint)
    (radius : ℚ) : KdTree → List Uuid → Nat → ConceptualResult (List Uuid)
  | .leaf, results, _ => .ok results
  | .node p _ l r, results, depth => do
    let results ← match p.id with
      | some i =>
        match metric.calculate center p with
        | .error e => .error e
        | .ok d => pure (if d ≤ radius then results ++ [i] else results)
      | none => pure results
    let split_dim := depth % dimensions
    let center_val := center.coordinates.getD split_dim 0
    let node_val := p.coordinates.getD split_dim 0
    let dimension_distance := |center_val - node_val|
    if dimension_distance ≤ radius then do
      let results ← searchRange dimensions metric center radius l results (depth + 1)
      searchRange dimensions metric center radius r results (depth + 1)
    else if center_val < node_val then
      searchRange dimensions metric center radius l results (depth + 1)
    else
      searchRange dimensions metric center radius r results (depth + 1)

/-- `<KdTreeIndex as SpatialIndex>::range_search`. -/
def KdTreeIndex.range_search (idx : KdTreeIndex) (center : ConceptualPoint)
    (radius : ℚ) : ConceptualResult (List Uuid) :=
  match idx.root with
  | .leaf => .ok []
  | t => searchRange idx.dimensions idx.metric center radius t [] 0

/-- The space itself: `ConceptualSpace` (`src/space.rs`).  The point and region
`HashMap`s are association lists (see the module comment). -/
structure ConceptualSpace where
  id : Uuid
  name : String
  dimension_ids : List DimensionId
  metric : ConceptualMetric
  regions : List (Uuid × ConvexRegion)
  points : List (Uuid × ConceptualPoint)
deriving Repr, DecidableEq

/-- Constructor `ConceptualSpace::new`; the random space id is the explicit
`fresh` argument. -/
def ConceptualSpace.new (name : String) (dimension_ids : List DimensionId)
    (metric : ConceptualMetric) (fresh : Uuid) : ConceptualSpace :=
  { id := fresh, name := name, dimension_ids := dimension_ids, metric := metric,
    regions := [], points := [] }

/-- `ConceptualSpace::add_point`: use the point's own id if it carries one, a
fresh one (`Uuid::new_v4()`, the explicit argument) otherwise; insert into the
point map; always `Ok`. -/
def ConceptualSpace.add_point (space : ConceptualSpace) (point : ConceptualPoint)
    (fresh : Uuid) : ConceptualResult Uuid × ConceptualSpace :=
  let i := point.id.getD fresh
  (.ok i, { space with points := insertAssoc space.points i point })

/-- `ConceptualSpace::add_region`: resolve the region's declared member ids
against the point map, reject with `InvalidDimension` when the resolved sample
is non-empty and fails `is_convex`, insert otherwise. -/
def ConceptualSpace.add_region (space : ConceptualSpace) (region : ConvexRegion) :
    ConceptualResult Unit × ConceptualSpace :=
  let sample_points := region.member_points.filterMap fun i => lookupAssoc space.points i
  if ¬sample_points.isEmpty ∧ ¬region.is_convex sample_points then
    (.error .invalidDimension, space)
  else
    (.ok (), { space with regions := insertAssoc space.regions region.id region })

/-- `ConceptualSpace::find_containing_regions`: the stored regions whose
boundaries all test positive for the point. -/
def ConceptualSpace.find_containing_regions (space : ConceptualSpace)
    (point : ConceptualPoint) : List ConvexRegion :=
  (space.regions.map Prod.snd).filter fun region => region.contains point

/-- `ConceptualSpace::k_nearest_neighbors`: distance to every stored point via
`filter_map` + `.ok()` (silently dropping failed computations), sort
ascending, truncate to `k`; the overall result is always `Ok`. -/
def ConceptualSpace.k_nearest_neighbors (root : ℚ → ℚ) (space : ConceptualSpace)
    (point : ConceptualPoint) (k : Nat) : ConceptualResult (List (Uuid × ℚ)) :=
  .ok ((sortByDistance (space.points.filterMap fun ip =>
    (space.metric.distance root point ip.2).toOption.map fun d => (ip.1, d))).take k)

/-- The aggregate root `ConceptualSpaceAggregate` (`src/aggregate/conceptual_space.rs`). -/
structure ConceptualSpaceAggregate where
  space : ConceptualSpace
  version : Nat
  deleted : Bool
deriving Repr, DecidableEq

/-- `ConceptualSpaceAggregate::get_metric_weights`: empty on a deleted
aggregate, else each weight's value with no context. -/
def ConceptualSpaceAggregate.get_metric_weights (agg : ConceptualSpaceAggregate) : List ℚ :=
  if agg.deleted then []
  else agg.space.metric.dimension_weights.map fun w => w.value none

/-- `ConceptualSpaceAggregate::update_metric_weights`: reject on a deleted
aggregate, reject a length mismatch with `InvalidDimension`, otherwise replace
every weight with `DimensionWeight::Constant` and bump the version. -/
def ConceptualSpaceAggregate.update_metric_weights (agg : ConceptualSpaceAggregate)
    (weights : List ℚ) : ConceptualResult Unit × ConceptualSpaceAggregate :=
  if agg.deleted then
    (.error .domainError, agg)
  else if weights.length ≠ agg.space.metric.dimension_weights.length then
    (.error .invalidDimension, agg)
  else
    (.ok (),
      { agg with
        space := { agg.space with
          metric := { agg.space.metric with
            dimension_weights := weights.map DimensionWeight.constant } },
        version := agg.version + 1 })

/-- Dimension kinds `DimensionType` (`src/dimensions.rs`). -/
inductive DimensionType where
  | continuous
  | categorical
  | ordinal
  | circular
deriving Repr, DecidableEq

/-- A typed quality dimension `QualityDimension` (`src/dimensions.rs`); the
half-open `Range<f64>` is its two endpoints. -/
structure QualityDimension where
  id : DimensionId
  name : String
  dimension_type : DimensionType
  range_start : ℚ
  range_end : ℚ
  metric : DistanceMetric
  context : Option String
  description : Option String
deriving Repr, DecidableEq

/-- `QualityDimension::validate_value`: circular dimensions accept everything;
all other kinds require `range.start ≤ v < range.end`. -/
def QualityDimension.validate_value (d : QualityDimension) (value : ℚ) :
    ConceptualResult Unit :=
  match d.dimension_type with
  | .circular => .ok ()
  | _ =>
    if d.range_start ≤ value ∧ value < d.range_end then .ok ()
    else .error .invalidDimension

/-- `QualityDimension::normalize_value`: validate first; circular dimensions
return `(value % 360) / 360` with Rust's sign-preserving `%` and the constant
`360` irrespective of the declared range; other kinds rescale by the range
width (`0` when the width is zero). -/
def QualityDimension.normalize_value (d : QualityDimension) (value : ℚ) :
    ConceptualResult ℚ := do
  let _ ← d.validate_value value
  match d.dimension_type with
  | .circular => pure (rustRem value 360 / 360)
  | _ =>
    let range_size := d.range_end - d.range_start
    if range_size = 0 then pure 0
    else pure ((value - d.range_start) / range_size)

/-- Modelled from the spec (§3, "Circular dimensions accept any real value
(values wrap modulo the range width) and normalize via modulo before scaling
to `[0,1]`"): the normalization the claim asserts, wrapping with the
always-nonnegative modulo by the range width `e − s`, then scaling by it.
Stated as a separate definition to be compared against the source's
`normalize_value`. -/
def QualityDimension.normalize_value_spec (d : QualityDimension) (value : ℚ) : ℚ :=
  let width := d.range_end - d.range_start
  (value - width * ⌊value / width⌋) / width

/-- The similarity engine `SimilarityEngine` (`src/similarity.rs`); the
pair-keyed semantic cache is an association list. -/
structure SimilarityEngine where
  base_metric : DistanceMetric
  context_weights : List (String × List ℚ)
  similarity_cache : List ((Uuid × Uuid) × ℚ)
deriving Repr, DecidableEq

/-- The unordered cache key of `semantic_similarity`/`adaptive_similarity`:
`if id_a < id_b { (id_a, id_b) } else { (id_b, id_a) }`. -/
def cacheKey (id_a id_b : Uuid) : Uuid × Uuid :=
  if id_a < id_b then (id_a, id_b) else (id_b, id_a)

/-- The cosine score of `SimilarityEngine::semantic_similarity` after the cache
miss: `0` for a zero vector, else the rescaled cosine `(cos + 1) / 2`. -/
def cosineScore (a b : ConceptualPoint) : ℚ :=
  let norm_a := Rat.sqrt (dotQ a.coordinates a.coordinates)
  let norm_b := Rat.sqrt (dotQ b.coordinates b.coordinates)
  if norm_a = 0 ∨ norm_b = 0 then 0
  else (dotQ a.coordinates b.coordinates / (norm_a * norm_b) + 1) / 2

/-- `SimilarityEngine::semantic_similarity`: return the cached score for the
unordered id pair when both points are identified and the pair is cached,
else compute the rescaled cosine score.  Never an error, and never writes the
cache. -/
def SimilarityEngine.semantic_similarity (e : SimilarityEngine)
    (a b : ConceptualPoint) : ConceptualResult ℚ :=
  match a.id, b.id with
  | some id_a, some id_b =>
    match lookupAssoc e.similarity_cache (cacheKey id_a id_b) with
    | some cached => .ok cached
    | none => .ok (cosineScore a b)
  | _, _ => .ok (cosineScore a b)

/-- `SimilarityEngine::adaptive_similarity`: read the semantic score; with
feedback and both ids present, blend it as `current·(1 − 0.1) + feedback·0.1`,
store the blend under the unordered pair key and return it; otherwise return
the semantic score with the engine untouched. -/
def SimilarityEngine.adaptive_similarity (e : SimilarityEngine)
    (a b : ConceptualPoint) (feedback : Option ℚ) :
    ConceptualResult ℚ × SimilarityEngine :=
  match e.semantic_similarity a b with
  | .error er => (.error er, e)
  | .ok current_similarity =>
    match a.id, b.id, feedback with
    | some id_a, some id_b, some feedback_score =>
      let learning_rate : ℚ := 1/10
      let updated_similarity := current_similarity * (1 - learning_rate) +
        feedback_score * learning_rate
      (.ok updated_similarity,
        { e with similarity_cache :=
            insertAssoc e.similarity_cache (cacheKey id_a id_b) updated_similarity })
    | _, _, _ => (.ok current_similarity, e)

/-- The reasoning engine `ConceptualReasoning` (`src/reasoning.rs`); the unused
`CategoryFormation` member is omitted — no verified operation touches it. -/
structure ConceptualReasoning where
  similarity_engine : SimilarityEngine
  spatial_index : RTreeIndex
  learning_rate : ℚ
deriving Repr, DecidableEq

/-- Modelled from the spec (§4.3, failure mode): the distance of the query to
every stored point in order, aborting with the first error. -/
def collectDistances (metric : DistanceMetric) (query : ConceptualPoint) :
    List ConceptualPoint → ConceptualResult (List (ConceptualPoint × ℚ))
  | [] => .ok []
  | p :: rest => do
    let d ← metric.calculate query p
    let tail ← collectDistances metric query rest
    pure ((p, d) :: tail)

/-- Modelled from the spec: `RTreeIndex::find_k_nearest`, called by
`ConceptualReasoning::find_nearest_concept` (`src/reasoning.rs`), is absent
from the sources (only its call site exists).  Per §4.3 of the spec,
`k_nearest` "returns the k points of minimum distance under the configured
metric, ascending order, ties broken by discovery order", and "any distance
computation failure … aborts the whole query with an error".  It returns the
points themselves with their distances, as the call site consumes them. -/
def findKNearest (metric : DistanceMetric) (stored : List ConceptualPoint)
    (query : ConceptualPoint) (k : Nat) :
    ConceptualResult (List (ConceptualPoint × ℚ)) := do
  let pairs ← collectDistances metric query stored
  pure ((sortByDistance pairs).take k)

/-- `ConceptualReasoning::find_nearest_concept`: clear the engine's index,
re-insert every point of the space, query the k nearest. -/
def ConceptualReasoning.find_nearest_concept (r : ConceptualReasoning)
    (point : ConceptualPoint) (space : ConceptualSpace) (k : Nat) :
    ConceptualResult (List (ConceptualPoint × ℚ)) × ConceptualReasoning :=
  let rebuilt : RTreeIndex :=
    { points := space.points.map Prod.snd, metric := r.spatial_index.metric }
  (findKNearest rebuilt.metric rebuilt.points point k,
    { r with spatial_index := rebuilt })

/-- The displaced coordinates computed by `analogical_reasoning`:
`target_d[i] = C[i] + (B[i] − A[i])` for `i < A.len()` (the source indexes
`B` and `C` directly and would panic were they shorter; the verified
statements assume equal dimensionality). -/
def analogicalTargetCoords (source_a source_b target_c : ConceptualPoint) : List ℚ :=
  (List.range source_a.coordinates.length).map fun i =>
    target_c.coordinates.getD i 0 +
      (source_b.coordinates.getD i 0 - source_a.coordinates.getD i 0)

/-- `ConceptualReasoning::analogical_reasoning`: build `D = C + (B − A)` with
`C`'s dimension map and a fresh id, then snap to the nearest existing concept
when the 1-nearest query succeeds, is non-empty, and its distance is strictly
below `0.1`; a failed nearest-concept query is discarded by `if let Ok`. -/
def ConceptualReasoning.analogical_reasoning (r : ConceptualReasoning)
    (source_a source_b target_c : ConceptualPoint) (space : ConceptualSpace)
    (fresh : Uuid) : ConceptualResult ConceptualPoint × ConceptualReasoning :=
  let target_d := ConceptualPoint.new
    (analogicalTargetCoords source_a source_b target_c) target_c.dimension_map fresh
  let found := (r.find_nearest_concept target_d space 1).1
  let r' := (r.find_nearest_concept target_d space 1).2
  match found with
  | .ok nearest =>
    match nearest.head? with
    | some (nearest_point, distance) =>
      if distance < 1/10 then (.ok nearest_point, r')
      else (.ok target_d, r')
    | none => (.ok target_d, r')
  | .error _ => (.ok target_d, r')

/-! Helper lemmas about the association-list model and the sort. -/

lemma lookupAssoc_insertAssoc_self {κ α : Type} [DecidableEq κ]
    (l : List (κ × α)) (k : κ) (v : α) :
    lookupAssoc (insertAssoc l k v) k = some v := by
  induction l with
  | nil => simp [insertAssoc, lookupAssoc]
  | cons h t ih =>
    by_cases hk : h.1 = k
    · simp [insertAssoc, hk, lookupAssoc]
    · simpa [insertAssoc, hk, lookupAssoc] using ih

lemma insertAssoc_length_of_mem {κ α : Type} [DecidableEq κ]
    {l : List (κ × α)} {k : κ} (v : α) (hk : k ∈ l.map Prod.fst) :
    (insertAssoc l k v).length = l.length := by
  induction l with
  | nil => simp at hk
  | cons h t ih =>
    by_cases hh : h.1 = k
    · simp [insertAssoc, hh]
    · have hk' : k ∈ t.map Prod.fst := by
        rcases List.mem_map.mp hk with ⟨p, hp, hfst⟩
        rcases List.mem_cons.mp hp with rfl | hpt
        · exact absurd hfst hh
        · exact List.mem_map.mpr ⟨p, hpt, hfst⟩
      simp [insertAssoc, hh, ih hk']

lemma mem_map_snd_insertAssoc {κ α : Type} [DecidableEq κ]
    (l : List (κ × α)) (k : κ) (v : α) :
    v ∈ (insertAssoc l k v).map Prod.snd := by
  induction l with
  | nil => simp [insertAssoc]
  | cons h t ih =>
    by_cases hh : h.1 = k
    · simp [insertAssoc, hh]
    · simpa [insertAssoc, hh] using Or.inr ih

lemma value_constant_comp :
    ((fun w => DimensionWeight.value w none) ∘ DimensionWeight.constant) = fun w : ℚ => w := by
  funext w
  rfl

lemma map_value_constant (ws : List ℚ) :
    (ws.map DimensionWeight.constant).map (fun w => w.value none) = ws := by
  rw [List.map_map, value_constant_comp, List.map_id']

/-! Claim C2: replacing metric weights, round trip and rejection. -/

/-- C2.  On a live aggregate whose metric holds `n` weights,
`update_metric_weights` with a vector of length `n` succeeds and the new
weights are read back verbatim by `get_metric_weights`; any other length is
rejected with `InvalidDimension` and the readable weights are unchanged. -/
theorem C2_update_weights_round_trip (agg : ConceptualSpaceAggregate)
    (hdel : agg.deleted = false) (ws : List ℚ) :
    (ws.length = agg.space.metric.dimension_weights.length →
      (agg.update_metric_weights ws).1 = .ok () ∧
      (agg.update_metric_weights ws).2.get_metric_weights = ws) ∧
    (ws.length ≠ agg.space.metric.dimension_weights.length →
      (agg.update_metric_weights ws).1 = .error .invalidDimension ∧
      (agg.update_metric_weights ws).2.get_metric_weights = agg.get_metric_weights) := by
  constructor
  · intro hlen
    constructor
    · simp [ConceptualSpaceAggregate.update_metric_weights, hdel, hlen]
    · simp [ConceptualSpaceAggregate.update_metric_weights, hdel, hlen,
        ConceptualSpaceAggregate.get_metric_weights, value_constant_comp]
  · intro hlen
    constructor
    · simp [ConceptualSpaceAggregate.update_metric_weights, hdel, hlen]
    · simp [ConceptualSpaceAggregate.update_metric_weights, hdel, hlen]

/-- Concrete aggregate used to witness C2: two constant weights, not deleted. -/
def aggC2 : ConceptualSpaceAggregate :=
  { space := { id := 0, name := "s", dimension_ids := [10, 11],
               metric := { dimension_weights := [.constant 1, .constant 1],
                           minkowski_p := 2, current_context := none },
               regions := [], points := [] },
    version := 0, deleted := false }

/-- Witness for C2 at a concrete aggregate and weight vector. -/
theorem C2_update_weights_round_trip_witness :
    aggC2.deleted = false ∧
    (([(1 : ℚ)/2, 3/4].length = aggC2.space.metric.dimension_weights.length →
      (aggC2.update_metric_weights [1/2, 3/4]).1 = .ok () ∧
      (aggC2.update_metric_weights [1/2, 3/4]).2.get_metric_weights = [1/2, 3/4]) ∧
    ([(1 : ℚ)/2, 3/4].length ≠ aggC2.space.metric.dimension_weights.length →
      (aggC2.update_metric_weights [1/2, 3/4]).1 = .error .invalidDimension ∧
      (aggC2.update_metric_weights [1/2, 3/4]).2.get_metric_weights =
        aggC2.get_metric_weights)) :=
  ⟨rfl, C2_update_weights_round_trip aggC2 rfl [1/2, 3/4]⟩

/-! Claim C5: circular dimensions, validation and normalization. -/

/-- Concrete circular dimension with range `[0, 180)` used against C5. -/
def dimC5 : QualityDimension :=
  { id := 0, name := "hue", dimension_type := .circular, range_start := 0,
    range_end := 180, metric := .euclidean, context := none, description := none }

/-- Counterexample to C5 as stated: on the circular dimension with range
`[0, 180)`, `normalize_value (-90)` returns `-1/4` — computed with the
constant `360`, not the range width `180`, and with the sign-preserving `%` —
whereas the claimed formula `(v mod (e − s)) / (e − s)` gives `1/2`, and the
claimed membership in `[0, 1]` fails as well. -/
theorem C5_circular_normalize_counterexample :
    dimC5.dimension_type = .circular ∧
    dimC5.range_end - dimC5.range_start = 180 ∧
    dimC5.normalize_value (-90) = .ok (-1/4) ∧
    dimC5.normalize_value_spec (-90) = 1/2 ∧
    ((-1 : ℚ)/4 ≠ 1/2 ∧ ¬(0 ≤ (-1 : ℚ)/4)) := by
  refine ⟨rfl, by decide, by decide, by decide, by decide, by decide⟩

/-- C5 as amended.  For every circular dimension, `validate_value` always
succeeds, and `normalize_value v` returns `(v % 360) / 360` where `%` is the
truncated, sign-preserving remainder and `360` is a constant independent of
the declared range; the claimed formula `(v mod (e − s)) / (e − s)` with its
`[0, 1]` bounds holds exactly in the regime where both computations agree,
namely a range of width `360` and a nonnegative input. -/
theorem C5_circular_normalize (d : QualityDimension) (v : ℚ)
    (hc : d.dimension_type = .circular) :
    d.validate_value v = .ok () ∧
    d.normalize_value v = .ok (rustRem v 360 / 360) ∧
    (0 ≤ v → d.range_end - d.range_start = 360 →
      d.normalize_value v = .ok (d.normalize_value_spec v) ∧
      0 ≤ d.normalize_value_spec v ∧ d.normalize_value_spec v ≤ 1) := by
  have hval : d.validate_value v = .ok () := by
    simp [QualityDimension.validate_value, hc]
  have hnorm : d.normalize_value v = .ok (rustRem v 360 / 360) := by
    simp [QualityDimension.normalize_value, hval, hc]
  refine ⟨hval, hnorm, ?_⟩
  intro hv hw
  have htr : (truncQ (v / 360) : ℤ) = ⌊v / 360⌋ := by
    have hq : (0 : ℚ) ≤ v / 360 := div_nonneg hv (by norm_num)
    have hnum : 0 ≤ (v / 360).num := Rat.num_nonneg.mpr hq
    have hden : (0 : ℤ) ≤ ((v / 360).den : ℤ) := Int.ofNat_nonneg _
    rw [truncQ, Int.tdiv_eq_ediv hnum hden, Rat.floor_def]
  have hrem : rustRem v 360 = v - 360 * (⌊v / 360⌋ : ℚ) := by
    rw [rustRem, htr]
  have hspec : d.normalize_value_spec v = (v - 360 * (⌊v / 360⌋ : ℚ)) / 360 := by
    simp only [QualityDimension.normalize_value_spec, hw]
  constructor
  · rw [hnorm, hspec, hrem]
  · have hfr : (v - 360 * (⌊v / 360⌋ : ℚ)) / 360 = Int.fract (v / 360) := by
      rw [Int.fract]
      field_simp
    rw [hspec, hfr]
    exact ⟨Int.fract_nonneg _, le_of_lt (Int.fract_lt_one _)⟩

/-- Witness for C5 at the concrete circular dimension and input `-90`. -/
theorem C5_circular_normalize_witness :
    dimC5.dimension_type = .circular ∧
    (dimC5.validate_value (-90) = .ok () ∧
    dimC5.normalize_value (-90) = .ok (rustRem (-90) 360 / 360) ∧
    (0 ≤ (-90 : ℚ) → dimC5.range_end - dimC5.range_start = 360 →
      dimC5.normalize_value (-90) = .ok (dimC5.normalize_value_spec (-90)) ∧
      0 ≤ dimC5.normalize_value_spec (-90) ∧ dimC5.normalize_value_spec (-90) ≤ 1)) :=
  ⟨rfl, C5_circular_normalize dimC5 (-90) rfl⟩

/-! Claim C6: non-circular validation and zero-width ranges. -/

/-- Concrete zero-width continuous dimension `[5, 5)` used against C6. -/
def dimC6 : QualityDimension :=
  { id := 0, name := "z", dimension_type := .continuous, range_start := 5,
    range_end := 5, metric := .euclidean, context := none, description := none }

/-- Counterexample to C6 as stated: the zero-width continuous dimension `[5, 5)`
rejects its own boundary value `5` with `InvalidDimension`, where the claim
asserts it is the single accepted value. -/
theorem C6_zero_width_counterexample :
    dimC6.dimension_type ≠ .circular ∧
    dimC6.range_start = dimC6.range_end ∧
    dimC6.validate_value dimC6.range_start = .error .invalidDimension := by
  refine ⟨by decide, by decide, by decide⟩

/-- C6 as amended.  For every non-circular dimension, `validate_value v`
succeeds exactly when `range.start ≤ v < range.end`; consequently a zero-width
range accepts no value at all — including its own boundary value. -/
theorem C6_validate_halfopen (d : QualityDimension) (v : ℚ)
    (hc : d.dimension_type ≠ .circular) :
    (d.validate_value v = .ok () ↔ d.range_start ≤ v ∧ v < d.range_end) ∧
    (d.range_start = d.range_end → d.validate_value v = .error .invalidDimension) := by
  have hval : d.validate_value v =
      if d.range_start ≤ v ∧ v < d.range_end then .ok () else .error .invalidDimension := by
    cases hd : d.dimension_type <;> simp [QualityDimension.validate_value, hd] <;>
      exact absurd hd hc
  constructor
  · rw [hval]
    by_cases h : d.range_start ≤ v ∧ v < d.range_end <;> simp [h]
  · intro hzero
    rw [hval, if_neg]
    rintro ⟨h1, h2⟩
    rw [hzero] at h1
    exact absurd (lt_of_le_of_lt h1 h2) (lt_irrefl _)

/-- Witness for C6 at the concrete zero-width dimension and its boundary value. -/
theorem C6_validate_halfopen_witness :
    dimC6.dimension_type ≠ .circular ∧
    ((dimC6.validate_value 5 = .ok () ↔ dimC6.range_start ≤ 5 ∧ (5 : ℚ) < dimC6.range_end) ∧
    (dimC6.range_start = dimC6.range_end →
      dimC6.validate_value 5 = .error .invalidDimension)) :=
  ⟨by decide, C6_validate_halfopen dimC6 5 (by decide)⟩

/-! Claim C9: regions with no boundary hyperplanes contain everything. -/

/-- C9.  A region whose boundary list is empty contains every point, passes the
convexity sampling check for every sample, is accepted by `add_region` into
any space, and is returned by `find_containing_regions` for every query point;
`from_prototype` builds exactly such a region. -/
theorem C9_empty_boundaries_contain_all (region : ConvexRegion)
    (hb : region.boundaries = []) :
    (∀ p, region.contains p = true) ∧
    (∀ sample, region.is_convex sample = true) ∧
    (∀ space : ConceptualSpace,
      (space.add_region region).1 = .ok () ∧
      lookupAssoc (space.add_region region).2.regions region.id = some region ∧
      ∀ q, region ∈ (space.add_region region).2.find_containing_regions q) ∧
    (∀ proto fresh, (ConvexRegion.from_prototype proto fresh).boundaries = []) := by
  have hcont : ∀ p, region.contains p = true := fun p => by
    simp [ConvexRegion.contains, hb]
  have hconv : ∀ sample, region.is_convex sample = true := fun sample => by
    simp [ConvexRegion.is_convex, hcont]
  refine ⟨hcont, hconv, ?_, fun proto fresh => rfl⟩
  intro space
  have hadd : space.add_region region =
      (.ok (), { space with regions := insertAssoc space.regions region.id region }) := by
    simp [ConceptualSpace.add_region, hconv]
  refine ⟨by rw [hadd], ?_, ?_⟩
  · rw [hadd]
    exact lookupAssoc_insertAssoc_self space.regions region.id region
  · intro q
    rw [hadd]
    exact List.mem_filter.mpr
      ⟨mem_map_snd_insertAssoc space.regions region.id region, hcont q⟩

/-- Concrete boundary-less region used to witness C9. -/
def regC9 : ConvexRegion :=
  { id := 5, prototype := { coordinates := [1, 2], dimension_map := [], id := some 5 },
    boundaries := [], member_points := [], name := none, description := none }

/-- Witness for C9 at a concrete boundary-less region. -/
theorem C9_empty_boundaries_contain_all_witness :
    regC9.boundaries = [] ∧
    ((∀ p, regC9.contains p = true) ∧
    (∀ sample, regC9.is_convex sample = true) ∧
    (∀ space : ConceptualSpace,
      (space.add_region regC9).1 = .ok () ∧
      lookupAssoc (space.add_region regC9).2.regions regC9.id = some regC9 ∧
      ∀ q, regC9 ∈ (space.add_region regC9).2.find_containing_regions q) ∧
    (∀ proto fresh, (ConvexRegion.from_prototype proto fresh).boundaries = [])) :=
  ⟨rfl, C9_empty_boundaries_contain_all regC9 rfl⟩

/-! Claim C10: add_point is total and replaces on duplicate ids. -/

/-- C10.  `add_point` never fails: it returns the point's carried id (a fresh
one when absent) and stores the point under that key; adding a point whose id
is already a key of the point map replaces the stored point and leaves the
total point count unchanged. -/
theorem C10_add_point_total (space : ConceptualSpace) (point : ConceptualPoint)
    (fresh : Uuid) :
    (space.add_point point fresh).1 = .ok (point.id.getD fresh) ∧
    lookupAssoc (space.add_point point fresh).2.points (point.id.getD fresh) = some point ∧
    (∀ i, point.id = some i →
      (space.add_point point fresh).1 = .ok i ∧
      (i ∈ space.points.map Prod.fst →
        (space.add_point point fresh).2.points.length = space.points.length)) ∧
    (point.id = none → (space.add_point point fresh).1 = .ok fresh) := by
  refine ⟨rfl, ?_, ?_, ?_⟩
  · exact lookupAssoc_insertAssoc_self space.points (point.id.getD fresh) point
  · intro i hi
    refine ⟨by simp [ConceptualSpace.add_point, hi], ?_⟩
    intro hmem
    have : point.id.getD fresh = i := by simp [hi]
    simp only [ConceptualSpace.add_point, this]
    exact insertAssoc_length_of_mem point hmem
  · intro hnone
    simp [ConceptualSpace.add_point, hnone]

/-- Concrete space and point used to witness C10: the point's id `1` is already
a key of the point map. -/
def spaceC10 : ConceptualSpace :=
  { id := 0, name := "s", dimension_ids := [], metric := ⟨[.constant 1], 1, none⟩,
    regions := [], points := [(1, { coordinates := [0], dimension_map := [], id := some 1 })] }

/-- Witness for C10: replacing the stored point under the duplicate id `1`. -/
theorem C10_add_point_total_witness :
    ((spaceC10.add_point { coordinates := [9], dimension_map := [], id := some 1 } 77).1 =
      .ok ((some 1 : Option Uuid).getD 77)) ∧
    (lookupAssoc (spaceC10.add_point { coordinates := [9], dimension_map := [], id := some 1 } 77).2.points
      ((some 1 : Option Uuid).getD 77) =
      some { coordinates := [9], dimension_map := [], id := some 1 }) ∧
    (∀ i, (some 1 : Option Uuid) = some i →
      (spaceC10.add_point { coordinates := [9], dimension_map := [], id := some 1 } 77).1 = .ok i ∧
      (i ∈ spaceC10.points.map Prod.fst →
        (spaceC10.add_point { coordinates := [9], dimension_map := [], id := some 1 } 77).2.points.length =
          spaceC10.points.length)) ∧
    ((some 1 : Option Uuid) = none →
      (spaceC10.add_point { coordinates := [9], dimension_map := [], id := some 1 } 77).1 = .ok 77) :=
  C10_add_point_total spaceC10 { coordinates := [9], dimension_map := [], id := some 1 } 77

/-! Claim C8: adaptive similarity, pure read without feedback, cache update with. -/

lemma semantic_similarity_never_errors (e : SimilarityEngine) (a b : ConceptualPoint) :
    ∃ c, e.semantic_similarity a b = .ok c := by
  unfold SimilarityEngine.semantic_similarity
  cases ha : a.id with
  | none => exact ⟨_, rfl⟩
  | some id_a =>
    cases hb : b.id with
    | none => exact ⟨_, rfl⟩
    | some id_b =>
      cases hc : lookupAssoc e.similarity_cache (cacheKey id_a id_b) with
      | none => simp [hc]
      | some c => simp [hc]

/-- C8.  `adaptive_similarity` with no feedback returns exactly the
`semantic_similarity` result and leaves the engine (and its cache) untouched;
with feedback `f` and both points identified it returns and stores, under the
unordered id-pair key, the blend `current · (1 − 0.1) + f · 0.1` of the current
semantic score.  The semantic score itself is the cached value when the
unordered pair is cached, the rescaled cosine score otherwise. -/
theorem C8_adaptive_similarity (e : SimilarityEngine) (a b : ConceptualPoint) :
    (e.adaptive_similarity a b none = (e.semantic_similarity a b, e)) ∧
    (∀ id_a id_b f, a.id = some id_a → b.id = some id_b →
      ∃ c, e.semantic_similarity a b = .ok c ∧
        e.adaptive_similarity a b (some f) =
          (.ok (c * (1 - 1/10) + f * (1/10)),
            { e with similarity_cache := (insertAssoc e.similarity_cache
                (cacheKey id_a id_b) (c * (1 - 1/10) + f * (1/10))) })) ∧
    (∀ id_a id_b c, a.id = some id_a → b.id = some id_b →
      lookupAssoc e.similarity_cache (cacheKey id_a id_b) = some c →
      e.semantic_similarity a b = .ok c) ∧
    (∀ id_a id_b, a.id = some id_a → b.id = some id_b →
      lookupAssoc e.similarity_cache (cacheKey id_a id_b) = none →
      e.semantic_similarity a b = .ok (cosineScore a b)) := by
  refine ⟨?_, ?_, ?_, ?_⟩
  · rcases semantic_similarity_never_errors e a b with ⟨c, hsem⟩
    cases ha : a.id <;> cases hb : b.id <;>
      simp [SimilarityEngine.adaptive_similarity, hsem]
  · intro id_a id_b f ha hb
    rcases semantic_similarity_never_errors e a b with ⟨c, hsem⟩
    exact ⟨c, hsem, by simp [SimilarityEngine.adaptive_similarity, hsem, ha, hb]⟩
  · intro id_a id_b c ha hb hc
    simp [SimilarityEngine.semantic_similarity, ha, hb, hc]
  · intro id_a id_b ha hb hc
    simp [SimilarityEngine.semantic_similarity, ha, hb, hc]

/-- Concrete engine and identified points used to witness C8. -/
def engC8 : SimilarityEngine :=
  { base_metric := .manhattan, context_weights := [], similarity_cache := [((2, 3), 1/2)] }

/-- First concrete point for the C8 witness. -/
def ptC8a : ConceptualPoint := { coordinates := [1, 0], dimension_map := [], id := some 3 }

/-- Second concrete point for the C8 witness. -/
def ptC8b : ConceptualPoint := { coordinates := [0, 1], dimension_map := [], id := some 2 }

/-- Witness for C8 at a concrete engine with a cached pair. -/
theorem C8_adaptive_similarity_witness :
    (engC8.adaptive_similarity ptC8a ptC8b none = (engC8.semantic_similarity ptC8a ptC8b, engC8)) ∧
    (∀ id_a id_b f, ptC8a.id = some id_a → ptC8b.id = some id_b →
      ∃ c, engC8.semantic_similarity ptC8a ptC8b = .ok c ∧
        engC8.adaptive_similarity ptC8a ptC8b (some f) =
          (.ok (c * (1 - 1/10) + f * (1/10)),
            { engC8 with similarity_cache := (insertAssoc engC8.similarity_cache
                (cacheKey id_a id_b) (c * (1 - 1/10) + f * (1/10))) })) ∧
    (∀ id_a id_b c, ptC8a.id = some id_a → ptC8b.id = some id_b →
      lookupAssoc engC8.similarity_cache (cacheKey id_a id_b) = some c →
      engC8.semantic_similarity ptC8a ptC8b = .ok c) ∧
    (∀ id_a id_b, ptC8a.id = some id_a → ptC8b.id = some id_b →
      lookupAssoc engC8.similarity_cache (cacheKey id_a id_b) = none →
      engC8.semantic_similarity ptC8a ptC8b = .ok (cosineScore ptC8a ptC8b)) :=
  C8_adaptive_similarity engC8 ptC8a ptC8b

/-! Claim C3: add_region runs the convexity sampling check. -/

lemma is_convex_eq_true_iff (r : ConvexRegion) (sample : List ConceptualPoint) :
    r.is_convex sample = true ↔
    ∀ pq ∈ upperPairs sample, ∀ t ∈ [(1 : ℚ)/4, 1/2, 3/4], ∀ plane ∈ r.boundaries,
      0 ≤ plane.signed_distance (r.interpolate_points pq.1 pq.2 t) := by
  simp [ConvexRegion.is_convex, ConvexRegion.contains, Hyperplane.contains_positive]

/-- C3.  For a region at least two of whose declared member ids resolve to known
points of the space: when some boundary hyperplane puts an interpolated point
(at parameter 1/4, 1/2 or 3/4 between two resolved members, listed as the
ordered pairs of the source's double loop) on its strict negative side,
`add_region` fails with `InvalidDimension` and the region map is unchanged;
when every such interpolant lies on the nonneg side of every boundary,
`add_region` succeeds and the region is inserted under its id. -/
theorem C3_add_region_convexity_gate (space : ConceptualSpace) (region : ConvexRegion)
    (h2 : 2 ≤ (region.member_points.filterMap fun i => lookupAssoc space.points i).length) :
    ((∃ pq ∈ upperPairs (region.member_points.filterMap fun i => lookupAssoc space.points i),
        ∃ t ∈ [(1 : ℚ)/4, 1/2, 3/4], ∃ plane ∈ region.boundaries,
          plane.signed_distance (region.interpolate_points pq.1 pq.2 t) < 0) →
      (space.add_region region).1 = .error .invalidDimension ∧
      (space.add_region region).2.regions = space.regions) ∧
    ((∀ pq ∈ upperPairs (region.member_points.filterMap fun i => lookupAssoc space.points i),
        ∀ t ∈ [(1 : ℚ)/4, 1/2, 3/4], ∀ plane ∈ region.boundaries,
          0 ≤ plane.signed_distance (region.interpolate_points pq.1 pq.2 t)) →
      (space.add_region region).1 = .ok () ∧
      lookupAssoc (space.add_region region).2.regions region.id = some region) := by
  constructor
  · rintro ⟨pq, hpq, t, ht, plane, hplane, hneg⟩
    have hconv : region.is_convex
        (region.member_points.filterMap fun i => lookupAssoc space.points i) = false := by
      rw [Bool.eq_false_iff]
      intro htrue
      have := (is_convex_eq_true_iff region _).mp htrue pq hpq t ht plane hplane
      exact absurd hneg (not_lt.mpr this)
    have hne : (region.member_points.filterMap fun i => lookupAssoc space.points i) ≠ [] := by
      intro hnil
      rw [hnil] at h2
      simp at h2
    constructor <;>
      simp [ConceptualSpace.add_region, hconv, hne]
  · intro hgood
    have hconv : region.is_convex
        (region.member_points.filterMap fun i => lookupAssoc space.points i) = true :=
      (is_convex_eq_true_iff region _).mpr hgood
    have hadd : space.add_region region =
        (.ok (), { space with regions := insertAssoc space.regions region.id region }) := by
      simp [ConceptualSpace.add_region, hconv]
    exact ⟨by rw [hadd], by rw [hadd]; exact lookupAssoc_insertAssoc_self _ _ _⟩

/-- Concrete space used to witness C3: two stored points `[0]` and `[1]`. -/
def spaceC3 : ConceptualSpace :=
  { id := 0, name := "s", dimension_ids := [], metric := ⟨[.constant 1], 1, none⟩,
    regions := [],
    points := [(1, { coordinates := [0], dimension_map := [], id := some 1 }),
               (2, { coordinates := [1], dimension_map := [], id := some 2 })] }

/-- Concrete region used to witness C3: members resolve to both stored points,
one boundary half-space `x ≥ 0` containing every interpolant. -/
def regC3 : ConvexRegion :=
  { id := 9, prototype := { coordinates := [0], dimension_map := [], id := none },
    boundaries := [{ normal := [1], offset := 0 }], member_points := [1, 2],
    name := none, description := none }

/-- Witness for C3 at the concrete space and region. -/
theorem C3_add_region_convexity_gate_witness :
    2 ≤ (regC3.member_points.filterMap fun i => lookupAssoc spaceC3.points i).length ∧
    (((∃ pq ∈ upperPairs (regC3.member_points.filterMap fun i => lookupAssoc spaceC3.points i),
        ∃ t ∈ [(1 : ℚ)/4, 1/2, 3/4], ∃ plane ∈ regC3.boundaries,
          plane.signed_distance (regC3.interpolate_points pq.1 pq.2 t) < 0) →
      (spaceC3.add_region regC3).1 = .error .invalidDimension ∧
      (spaceC3.add_region regC3).2.regions = spaceC3.regions) ∧
    ((∀ pq ∈ upperPairs (regC3.member_points.filterMap fun i => lookupAssoc spaceC3.points i),
        ∀ t ∈ [(1 : ℚ)/4, 1/2, 3/4], ∀ plane ∈ regC3.boundaries,
          0 ≤ plane.signed_distance (regC3.interpolate_points pq.1 pq.2 t)) →
      (spaceC3.add_region regC3).1 = .ok () ∧
      lookupAssoc (spaceC3.add_region regC3).2.regions regC3.id = some regC3)) :=
  ⟨by decide, C3_add_region_convexity_gate spaceC3 regC3 (by decide)⟩

/-! Claim C1: behaviour of the spatial indexes on unreadable stored points. -/

lemma calculate_length_mismatch (m : DistanceMetric) {a b : ConceptualPoint}
    (h : a.coordinates.length ≠ b.coordinates.length) :
    m.calculate a b = .error .invalidPoint := by
  simp [DistanceMetric.calculate, h]

lemma except_toOption_eq_some {ε α : Type} {x : Except ε α} {a : α} :
    x.toOption = some a ↔ x = .ok a := by
  cases x <;> simp [Except.toOption]

lemma rangeLoop_isError (m : DistanceMetric) (center : ConceptualPoint) (radius : ℚ) :
    ∀ (pts : List ConceptualPoint) (acc : List Uuid),
      (∃ p ∈ pts, ∃ i, p.id = some i ∧ ∃ e, m.calculate center p = .error e) →
      ∃ e, rangeLoop m center radius pts acc = .error e := by
  intro pts
  induction pts with
  | nil => rintro acc ⟨p, hp, _⟩; simp at hp
  | cons q rest ih =>
    rintro acc ⟨p, hp, i, hpid, e, herr⟩
    cases hq : q.id with
    | none =>
      rcases List.mem_cons.mp hp with rfl | hrest
      · rw [hq] at hpid; exact absurd hpid (by simp)
      · simpa [rangeLoop, hq] using ih acc ⟨p, hrest, i, hpid, e, herr⟩
    | some j =>
      cases hcalc : m.calculate center q with
      | error e2 => exact ⟨e2, by simp [rangeLoop, hq, hcalc]⟩
      | ok d =>
        rcases List.mem_cons.mp hp with rfl | hrest
        · rw [herr] at hcalc; exact absurd hcalc (by simp)
        · simpa [rangeLoop, hq, hcalc] using
            ih _ ⟨p, hrest, i, hpid, e, herr⟩

lemma error_bind {ε α β : Type} (e : ε) (f : α → Except ε β) :
    (Except.error e >>= f) = Except.error e := rfl

lemma searchKnn_root_mismatch (dims : Nat) (m : DistanceMetric) (q : ConceptualPoint)
    (k : Nat) {p : ConceptualPoint} {sd : Nat} (l r : KdTree)
    (best : List (Uuid × ℚ)) (depth : Nat) {i : Uuid} (hpid : p.id = some i)
    (hlen : p.coordinates.length ≠ q.coordinates.length) :
    searchKnn dims m q k (.node p sd l r) best depth = .error .invalidPoint := by
  have hcalc : m.calculate q p = .error .invalidPoint :=
    calculate_length_mismatch m (fun h => hlen h.symm)
  simp [searchKnn, hpid, hcalc, error_bind]

lemma searchRange_root_mismatch (dims : Nat) (m : DistanceMetric) (c : ConceptualPoint)
    (radius : ℚ) {p : ConceptualPoint} {sd : Nat} (l r : KdTree)
    (acc : List Uuid) (depth : Nat) {i : Uuid} (hpid : p.id = some i)
    (hlen : p.coordinates.length ≠ c.coordinates.length) :
    searchRange dims m c radius (.node p sd l r) acc depth = .error .invalidPoint := by
  have hcalc : m.calculate c p = .error .invalidPoint :=
    calculate_length_mismatch m (fun h => hlen h.symm)
  simp [searchRange, hpid, hcalc, error_bind]

/-- Stored point of dimension 2 with an id, unreadable from 1-dimensional queries. -/
def ptBadC1 : ConceptualPoint := { coordinates := [0, 0], dimension_map := [], id := some 7 }

/-- Linear-scan index holding only the unreadable point. -/
def rtC1 : RTreeIndex := { points := [ptBadC1], metric := .manhattan }

/-- One-dimensional query point for the C1 counterexample. -/
def queryC1 : ConceptualPoint := { coordinates := [0], dimension_map := [], id := none }

/-- KD-tree built by two inserts: root `[0]` (id 1) and, to its left, the
unreadable identified point `[-5, -7]` (id 2). -/
def kdC1 : KdTreeIndex :=
  ((((KdTreeIndex.new 1 .manhattan).insert
    { coordinates := [0], dimension_map := [], id := some 1 }).2).insert
    { coordinates := [-5, -7], dimension_map := [], id := some 2 }).2

/-- Query placed so the KD-tree range search prunes the left subtree. -/
def centerC1 : ConceptualPoint := { coordinates := [10], dimension_map := [], id := none }

/-- Counterexample to C1 as stated: the linear-scan `k_nearest_neighbors`
returns `Ok []`, silently omitting its only stored (identified) point, whose
coordinate length differs from the query's; and the KD-tree `range_search`
prunes the subtree holding such a point and likewise returns `Ok []` instead
of an error. -/
theorem C1_silent_omission_counterexample :
    (rtC1.k_nearest_neighbors queryC1 1 = .ok []) ∧
    (∃ p ∈ rtC1.points, ∃ i, p.id = some i ∧
      p.coordinates.length ≠ queryC1.coordinates.length) ∧
    (kdC1.range_search centerC1 1 = .ok []) ∧
    (∃ p ∈ kdC1.root.points, ∃ i, p.id = some i ∧
      p.coordinates.length ≠ centerC1.coordinates.length) := by
  refine ⟨by decide, by decide, by decide, by decide⟩

/-- C1 as amended.  (1) The linear-scan `range_search` aborts with an error
whenever the index holds an identified point whose distance computation fails
— in particular one of mismatched coordinate length.  (2) The linear-scan
`k_nearest_neighbors` never errors: every returned pair comes from a stored
identified point with a successful distance computation, failing points being
silently omitted.  (3) The KD-tree queries abort with an error when the
traversal reaches an identified point of mismatched length — in particular
whenever the root point is such — but branch pruning may leave an offending
point unvisited (see the counterexample), in which case it is omitted without
an error. -/
theorem C1_distance_failure_propagation :
    (∀ (idx : RTreeIndex) (center : ConceptualPoint) (radius : ℚ),
      (∃ p ∈ idx.points, ∃ i, p.id = some i ∧
        p.coordinates.length ≠ center.coordinates.length) →
      ∃ e, idx.range_search center radius = .error e) ∧
    (∀ (idx : RTreeIndex) (query : ConceptualPoint) (k : Nat),
      ∃ l, idx.k_nearest_neighbors query k = .ok l ∧
        ∀ x ∈ l, ∃ p ∈ idx.points, p.id = some x.1 ∧
          idx.metric.calculate query p = .ok x.2) ∧
    (∀ (idx : KdTreeIndex) (q : ConceptualPoint) (k : Nat) (radius : ℚ)
        (p : ConceptualPoint) (sd : Nat) (l r : KdTree) (i : Uuid),
      idx.root = .node p sd l r → p.id = some i →
      p.coordinates.length ≠ q.coordinates.length →
      idx.k_nearest_neighbors q k = .error .invalidPoint ∧
      idx.range_search q radius = .error .invalidPoint) := by
  refine ⟨?_, ?_, ?_⟩
  · rintro idx center radius ⟨p, hp, i, hpid, hlen⟩
    exact rangeLoop_isError idx.metric center radius idx.points []
      ⟨p, hp, i, hpid, .invalidPoint, calculate_length_mismatch _ (fun h => hlen h.symm)⟩
  · intro idx query k
    refine ⟨_, rfl, ?_⟩
    intro x hx
    have hx1 : x ∈ sortByDistance (idx.points.filterMap fun point =>
        match point.id with
        | some i => (idx.metric.calculate query point).toOption.map fun d => (i, d)
        | none => none) := List.mem_of_mem_take hx
    have hx2 := (List.mem_insertionSort sndLe).mp hx1
    rcases List.mem_filterMap.mp hx2 with ⟨p, hp, hf⟩
    cases hpid : p.id with
    | none => rw [hpid] at hf; exact absurd hf (by simp)
    | some i =>
      rw [hpid] at hf
      rcases Option.map_eq_some'.mp hf with ⟨d, hd, hxd⟩
      exact ⟨p, hp, by rw [hpid, ← hxd], by
        rw [← hxd]
        exact except_toOption_eq_some.mp hd⟩
  · intro idx q k radius p sd l r i hroot hpid hlen
    constructor
    · simp [KdTreeIndex.k_nearest_neighbors, hroot,
        searchKnn_root_mismatch idx.dimensions idx.metric q k l r [] 0 hpid hlen]
    · simp [KdTreeIndex.range_search, hroot,
        searchRange_root_mismatch idx.dimensions idx.metric q radius l r [] 0 hpid hlen]

/-- Single-node KD-tree on the unreadable identified point, for the C1 witness. -/
def kdRootC1 : KdTreeIndex :=
  ((KdTreeIndex.new 1 .manhattan).insert ptBadC1).2

/-- Witness for C1 applying each of its three parts at a concrete index. -/
theorem C1_distance_failure_propagation_witness :
    ((∃ p ∈ rtC1.points, ∃ i, p.id = some i ∧
        p.coordinates.length ≠ queryC1.coordinates.length) ∧
      (∃ e, rtC1.range_search queryC1 1 = .error e)) ∧
    (∃ l, rtC1.k_nearest_neighbors queryC1 1 = .ok l ∧
      ∀ x ∈ l, ∃ p ∈ rtC1.points, p.id = some x.1 ∧
        rtC1.metric.calculate queryC1 p = .ok x.2) ∧
    (kdRootC1.root = .node ptBadC1 0 .leaf .leaf ∧ ptBadC1.id = some 7 ∧
      ptBadC1.coordinates.length ≠ queryC1.coordinates.length ∧
      kdRootC1.k_nearest_neighbors queryC1 2 = .error .invalidPoint ∧
      kdRootC1.range_search queryC1 1 = .error .invalidPoint) :=
  ⟨⟨by decide, C1_distance_failure_propagation.1 rtC1 queryC1 1 (by decide)⟩,
    C1_distance_failure_propagation.2.1 rtC1 queryC1 1,
    by decide, by decide, by decide,
    (C1_distance_failure_propagation.2.2 kdRootC1 queryC1 2 1 ptBadC1 0 .leaf .leaf 7
      (by decide) (by decide) (by decide)).1,
    (C1_distance_failure_propagation.2.2 kdRootC1 queryC1 2 1 ptBadC1 0 .leaf .leaf 7
      (by decide) (by decide) (by decide)).2⟩

/-! Claim C4: the space's own k_nearest_neighbors. -/

lemma metric_distance_ok (root : ℚ → ℚ) (m : ConceptualMetric) (a b : ConceptualPoint)
    (h1 : a.coordinates.length = b.coordinates.length)
    (h2 : m.get_weights.length = a.coordinates.length) :
    ∃ d, m.distance root a b = .ok d := by
  simp [ConceptualMetric.distance, ConceptualPoint.weighted_distance, h1, h2]

lemma filterMap_length_all_some {α β : Type} (f : α → Option β) :
    ∀ l : List α, (∀ a ∈ l, (f a).isSome) → (l.filterMap f).length = l.length := by
  intro l
  induction l with
  | nil => intro _; rfl
  | cons h t ih =>
    intro hall
    rcases Option.isSome_iff_exists.mp (hall h (List.mem_cons_self h t)) with ⟨b, hb⟩
    simp only [List.filterMap_cons, hb, List.length_cons]
    rw [ih fun a ha => hall a (List.mem_cons_of_mem h ha)]

/-- Space with a single stored one-dimensional point but an empty metric weight
vector, used against C4. -/
def spaceC4 : ConceptualSpace :=
  { id := 0, name := "s", dimension_ids := [], metric := ⟨[], 1, none⟩,
    regions := [], points := [(1, { coordinates := [0], dimension_map := [], id := some 1 })] }

/-- Query of matching coordinate length for the C4 counterexample. -/
def queryC4 : ConceptualPoint := { coordinates := [0], dimension_map := [], id := none }

/-- Counterexample to C4 as stated: every stored point of `spaceC4` has the
query's coordinate length, yet `k_nearest_neighbors` returns `Ok []` — zero
pairs instead of the claimed `min k n = 1` — because the metric's weight
vector (empty here) mismatches the coordinate length and every distance
computation fails and is silently dropped. -/
theorem C4_knn_counterexample :
    (∀ pr ∈ spaceC4.points, pr.2.coordinates.length = queryC4.coordinates.length) ∧
    spaceC4.points.length = 1 ∧
    spaceC4.k_nearest_neighbors id queryC4 1 = .ok [] ∧
    (0 : Nat) ≠ min 1 spaceC4.points.length := by
  refine ⟨by decide, by decide, by decide, by decide⟩

/-- C4 as amended.  When every stored point has the query's coordinate length
AND the metric's weight vector has that same length, `k_nearest_neighbors`
returns `Ok` with exactly `min k n` pairs, sorted ascending by distance, each
distance being the metric distance from the query to the stored point under
that id, and no stored point outside the result is strictly closer than any
returned pair. -/
theorem C4_knn_sorted_complete (root : ℚ → ℚ) (space : ConceptualSpace)
    (point : ConceptualPoint) (k : Nat)
    (hp : ∀ pr ∈ space.points, pr.2.coordinates.length = point.coordinates.length)
    (hw : space.metric.get_weights.length = point.coordinates.length) :
    ∃ l, space.k_nearest_neighbors root point k = .ok l ∧
      l.length = min k space.points.length ∧
      List.Sorted sndLe l ∧
      (∀ x ∈ l, ∃ p, (x.1, p) ∈ space.points ∧
        space.metric.distance root point p = .ok x.2) ∧
      (∀ pr ∈ space.points, pr.1 ∉ l.map Prod.fst →
        ∀ x ∈ l, ∀ d, space.metric.distance root point pr.2 = .ok d → x.2 ≤ d) := by
  have hok : ∀ pr ∈ space.points, ∃ d, space.metric.distance root point pr.2 = .ok d :=
    fun pr hpr => metric_distance_ok root space.metric point pr.2 (hp pr hpr).symm hw
  set fl := space.points.filterMap fun ip =>
    (space.metric.distance root point ip.2).toOption.map fun d => (ip.1, d) with hfldef
  have hfl : fl.length = space.points.length := by
    refine filterMap_length_all_some _ _ fun pr hpr => ?_
    rcases hok pr hpr with ⟨d, hd⟩
    simp [hd, Except.toOption]
  have hperm : (sortByDistance fl).Perm fl := List.perm_insertionSort sndLe fl
  have hsorted : List.Sorted sndLe (sortByDistance fl) := List.sorted_insertionSort sndLe fl
  refine ⟨(sortByDistance fl).take k, rfl, ?_, ?_, ?_, ?_⟩
  · rw [List.length_take, hperm.length_eq, hfl]
  · exact List.Pairwise.sublist (List.take_sublist _ _) hsorted
  · intro x hx
    have hx1 : x ∈ fl := (List.mem_insertionSort sndLe).mp (List.mem_of_mem_take hx)
    rcases List.mem_filterMap.mp hx1 with ⟨pr, hpr, hf⟩
    rcases Option.map_eq_some'.mp hf with ⟨d, hd, hxd⟩
    refine ⟨pr.2, ?_, ?_⟩
    · rw [← hxd]; exact hpr
    · rw [← hxd]
      exact except_toOption_eq_some.mp hd
  · intro pr hpr hnot x hx d hd
    have hent : ((pr.1, d) : Uuid × ℚ) ∈ fl :=
      List.mem_filterMap.mpr ⟨pr, hpr, by simp [hd, Except.toOption]⟩
    have hsall : ((pr.1, d) : Uuid × ℚ) ∈ sortByDistance fl := hperm.mem_iff.mpr hent
    have hdrop : ((pr.1, d) : Uuid × ℚ) ∈ (sortByDistance fl).drop k := by
      rcases (List.mem_append.mp (by rwa [List.take_append_drop k])) with hin | hin
      · exact absurd (List.mem_map.mpr ⟨(pr.1, d), hin, rfl⟩) hnot
      · exact hin
    have hsplit := hsorted
    rw [← List.take_append_drop k (sortByDistance fl)] at hsplit
    exact (List.pairwise_append.mp hsplit).2.2 x hx (pr.1, d) hdrop

/-- Space used to witness C4: three one-dimensional points, unit weight. -/
def spaceW4 : ConceptualSpace :=
  { id := 0, name := "s", dimension_ids := [], metric := ⟨[.constant 1], 1, none⟩,
    regions := [],
    points := [(1, { coordinates := [0], dimension_map := [], id := some 1 }),
               (2, { coordinates := [1], dimension_map := [], id := some 2 }),
               (3, { coordinates := [2], dimension_map := [], id := some 3 })] }

/-- Query near the first stored point, for the C4 witness. -/
def queryW4 : ConceptualPoint := { coordinates := [1/10], dimension_map := [], id := none }

/-- Witness for C4 at the concrete three-point space with `k = 2`. -/
theorem C4_knn_sorted_complete_witness :
    (∀ pr ∈ spaceW4.points, pr.2.coordinates.length = queryW4.coordinates.length) ∧
    spaceW4.metric.get_weights.length = queryW4.coordinates.length ∧
    (∃ l, spaceW4.k_nearest_neighbors id queryW4 2 = .ok l ∧
      l.length = min 2 spaceW4.points.length ∧
      List.Sorted sndLe l ∧
      (∀ x ∈ l, ∃ p, (x.1, p) ∈ spaceW4.points ∧
        spaceW4.metric.distance id queryW4 p = .ok x.2) ∧
      (∀ pr ∈ spaceW4.points, pr.1 ∉ l.map Prod.fst →
        ∀ x ∈ l, ∀ d, spaceW4.metric.distance id queryW4 pr.2 = .ok d → x.2 ≤ d)) :=
  ⟨by decide, by decide,
    C4_knn_sorted_complete id spaceW4 queryW4 2 (by decide) (by decide)⟩

/-! Claim C7: analogical reasoning, offset transfer and snapping. -/

lemma ok_bind {ε α β : Type} (a : α) (f : α → Except ε β) :
    (Except.ok a >>= f) = f a := rfl

lemma collectDistances_ok (m : DistanceMetric) (q : ConceptualPoint) :
    ∀ l : List ConceptualPoint, (∀ p ∈ l, ∃ d, m.calculate q p = .ok d) →
      ∃ res, collectDistances m q l = .ok res ∧
        List.Forall₂ (fun p x => x.1 = p ∧ m.calculate q p = .ok x.2) l res := by
  intro l
  induction l with
  | nil => exact fun _ => ⟨[], rfl, .nil⟩
  | cons h t ih =>
    intro hall
    rcases hall h (List.mem_cons_self h t) with ⟨d, hd⟩
    rcases ih (fun p hp => hall p (List.mem_cons_of_mem h hp)) with ⟨res, hres, hfa⟩
    exact ⟨(h, d) :: res,
      by simp [collectDistances, hd, hres, ok_bind], .cons ⟨rfl, hd⟩ hfa⟩

lemma forall2_mem_right {α β : Type} {R : α → β → Prop} :
    ∀ {l : List α} {res : List β}, List.Forall₂ R l res → ∀ x ∈ res, ∃ a ∈ l, R a x := by
  intro l res h
  induction h with
  | nil => simp
  | cons hR _ ih =>
    intro x hx
    rcases List.mem_cons.mp hx with rfl | hx'
    · exact ⟨_, List.mem_cons_self _ _, hR⟩
    · rcases ih x hx' with ⟨a, ha, hRa⟩
      exact ⟨a, List.mem_cons_of_mem _ ha, hRa⟩

lemma forall2_mem_left {α β : Type} {R : α → β → Prop} :
    ∀ {l : List α} {res : List β}, List.Forall₂ R l res → ∀ a ∈ l, ∃ x ∈ res, R a x := by
  intro l res h
  induction h with
  | nil => simp
  | cons hR _ ih =>
    intro a ha
    rcases List.mem_cons.mp ha with rfl | ha'
    · exact ⟨_, List.mem_cons_self _ _, hR⟩
    · rcases ih a ha' with ⟨x, hx, hRx⟩
      exact ⟨x, List.mem_cons_of_mem _ hx, hRx⟩

lemma analogicalTargetCoords_eq (A B C : ConceptualPoint)
    (hB : B.coordinates.length = A.coordinates.length)
    (hC : C.coordinates.length = A.coordinates.length) :
    analogicalTargetCoords A B C =
      List.zipWith (· + ·) C.coordinates
        (List.zipWith (· - ·) B.coordinates A.coordinates) := by
  apply List.ext_getElem
  · simp [analogicalTargetCoords, hB, hC]
  · intro i h1 h2
    have hiA : i < A.coordinates.length := by
      simpa [analogicalTargetCoords] using h1
    have hiB : i < B.coordinates.length := hB ▸ hiA
    have hiC : i < C.coordinates.length := hC ▸ hiA
    simp [analogicalTargetCoords, List.getElem?_eq_getElem hiA,
      List.getElem?_eq_getElem hiB, List.getElem?_eq_getElem hiC]

/-- C7.  With `A`, `B`, `C` of equal dimensionality and every stored-point
distance to the displaced target computable: when no stored point is strictly
within the snap distance `0.1` of `D = C + (B − A)` the returned point carries
exactly the coordinates `C + (B − A)` computed coordinate-wise; when some
stored point is strictly within `0.1`, the returned point is a stored point of
minimal distance to `D`, itself strictly within `0.1`.
`find_k_nearest`, absent from the sources, is modelled from the spec (§4.3)
by `findKNearest`. -/
theorem C7_analogical_offset_and_snap (r : ConceptualReasoning)
    (A B C : ConceptualPoint) (space : ConceptualSpace) (fresh : Uuid)
    (hB : B.coordinates.length = A.coordinates.length)
    (hC : C.coordinates.length = A.coordinates.length)
    (hok : ∀ p ∈ space.points.map Prod.snd, ∃ d,
      r.spatial_index.metric.calculate
        (ConceptualPoint.new (analogicalTargetCoords A B C) C.dimension_map fresh) p = .ok d) :
    ((∀ p ∈ space.points.map Prod.snd, ∀ d,
        r.spatial_index.metric.calculate
          (ConceptualPoint.new (analogicalTargetCoords A B C) C.dimension_map fresh) p = .ok d →
        1/10 ≤ d) →
      ∃ pt, (r.analogical_reasoning A B C space fresh).1 = .ok pt ∧
        pt.coordinates = List.zipWith (· + ·) C.coordinates
          (List.zipWith (· - ·) B.coordinates A.coordinates)) ∧
    ((∃ p ∈ space.points.map Prod.snd, ∃ d,
        r.spatial_index.metric.calculate
          (ConceptualPoint.new (analogicalTargetCoords A B C) C.dimension_map fresh) p = .ok d ∧
        d < 1/10) →
      ∃ p0 ∈ space.points.map Prod.snd, ∃ d0,
        (r.analogical_reasoning A B C space fresh).1 = .ok p0 ∧
        r.spatial_index.metric.calculate
          (ConceptualPoint.new (analogicalTargetCoords A B C) C.dimension_map fresh) p0 = .ok d0 ∧
        d0 < 1/10 ∧
        ∀ q ∈ space.points.map Prod.snd, ∀ dq,
          r.spatial_index.metric.calculate
            (ConceptualPoint.new (analogicalTargetCoords A B C) C.dimension_map fresh) q = .ok dq →
          d0 ≤ dq) := by
  set target := ConceptualPoint.new (analogicalTargetCoords A B C) C.dimension_map fresh
    with htarget
  set stored := space.points.map Prod.snd with hstored
  set m := r.spatial_index.metric with hm
  rcases collectDistances_ok m target stored hok with ⟨res, hres, hfa⟩
  have hfind : findKNearest m stored target 1 = .ok ((sortByDistance res).take 1) := by
    simp [findKNearest, hres, ok_bind]
  have hana : (r.analogical_reasoning A B C space fresh).1 =
      (match ((sortByDistance res).take 1).head? with
        | some (nearest_point, distance) =>
          if distance < 1/10 then Except.ok nearest_point else Except.ok target
        | none => Except.ok target) := by
    simp only [ConceptualReasoning.analogical_reasoning,
      ConceptualReasoning.find_nearest_concept, ← htarget, ← hm, ← hstored, hfind]
    cases hh : ((sortByDistance res).take 1).head? with
    | none => rfl
    | some pr =>
      rcases pr with ⟨a, b⟩
      by_cases hb : b < 1/10
      · simp [hb, -one_div]
      · simp [hb, -one_div]
  have hsorted : List.Sorted sndLe (sortByDistance res) := List.sorted_insertionSort sndLe res
  have hperm : (sortByDistance res).Perm res := List.perm_insertionSort sndLe res
  constructor
  · intro hfar
    cases hs : sortByDistance res with
    | nil =>
      refine ⟨target, ?_, ?_⟩
      · rw [hana, hs]
        rfl
      · exact analogicalTargetCoords_eq A B C hB hC
    | cons hd tl =>
      obtain ⟨a, b⟩ := hd
      have hhd : ((a, b) : ConceptualPoint × ℚ) ∈ res :=
        hperm.mem_iff.mp (hs ▸ List.mem_cons_self (a, b) tl)
      rcases forall2_mem_right hfa (a, b) hhd with ⟨p, hp, hp1, hcalc⟩
      have hge : 1/10 ≤ b := hfar p hp b hcalc
      refine ⟨target, ?_, analogicalTargetCoords_eq A B C hB hC⟩
      rw [hana, hs]
      simp only [List.take_succ_cons, List.take_zero, List.head?_cons]
      rw [if_neg (not_lt.mpr hge)]
  · rintro ⟨p, hp, d, hd, hdlt⟩
    rcases forall2_mem_left hfa p hp with ⟨x, hx, hx1, hxcalc⟩
    have hxd : x.2 = d := by
      rw [hxcalc] at hd
      simpa using hd
    cases hs : sortByDistance res with
    | nil =>
      have : res = [] := List.eq_nil_of_length_eq_zero (by
        rw [← hperm.length_eq, hs]; rfl)
      rw [this] at hx
      simp at hx
    | cons hd0 tl =>
      obtain ⟨a0, b0⟩ := hd0
      have hmin : ∀ y ∈ sortByDistance res, b0 ≤ y.2 := by
        intro y hy
        rcases List.mem_cons.mp (hs ▸ hy) with rfl | hy'
        · exact le_refl _
        · exact List.rel_of_sorted_cons (hs ▸ hsorted) y hy'
      have hhd0 : ((a0, b0) : ConceptualPoint × ℚ) ∈ res :=
        hperm.mem_iff.mp (hs ▸ List.mem_cons_self (a0, b0) tl)
      rcases forall2_mem_right hfa (a0, b0) hhd0 with ⟨p0, hp0, hp01, hcalc0⟩
      have hd0lt : b0 < 1/10 := by
        have hxmem : x ∈ sortByDistance res := hperm.mem_iff.mpr hx
        have := hmin x hxmem
        rw [hxd] at this
        exact lt_of_le_of_lt this hdlt
      refine ⟨p0, hp0, b0, ?_, ?_, hd0lt, ?_⟩
      · rw [hana, hs]
        simp only [List.take_succ_cons, List.take_zero, List.head?_cons]
        rw [if_pos hd0lt]
        exact congrArg Except.ok hp01
      · exact hcalc0
      · intro q hq dq hqcalc
        rcases forall2_mem_left hfa q hq with ⟨y, hy, hy1, hycalc⟩
        have hyd : y.2 = dq := by
          rw [hycalc] at hqcalc
          simpa using hqcalc
        have := hmin y (hperm.mem_iff.mpr hy)
        rw [hyd] at this
        exact this

/-- Reasoning engine over the Manhattan metric, for the C7 witness. -/
def rengC7 : ConceptualReasoning where
  similarity_engine := { base_metric := .manhattan, context_weights := [], similarity_cache := [] }
  spatial_index := RTreeIndex.new .manhattan
  learning_rate := 1/10

/-- Point `A = (0.2, 0.3)` of the spec's analogical-reasoning example. -/
def ptC7a : ConceptualPoint := { coordinates := [1/5, 3/10], dimension_map := [], id := none }

/-- Point `B = (0.4, 0.5)` of the spec's analogical-reasoning example. -/
def ptC7b : ConceptualPoint := { coordinates := [2/5, 1/2], dimension_map := [], id := none }

/-- Point `C = (0.6, 0.7)` of the spec's analogical-reasoning example. -/
def ptC7c : ConceptualPoint := { coordinates := [3/5, 7/10], dimension_map := [], id := none }

/-- Space holding one stored point far from the displaced target, for the C7 witness. -/
def spaceC7 : ConceptualSpace :=
  { id := 0, name := "s", dimension_ids := [], metric := ⟨[.constant 1, .constant 1], 2, none⟩,
    regions := [],
    points := [(1, { coordinates := [0, 0], dimension_map := [], id := some 1 })] }

/-- Witness for C7 at the spec's example `A=(0.2,0.3), B=(0.4,0.5), C=(0.6,0.7)`,
whose displaced target is `D=(0.8,0.9)`. -/
theorem C7_analogical_offset_and_snap_witness :
    ptC7b.coordinates.length = ptC7a.coordinates.length ∧
    ptC7c.coordinates.length = ptC7a.coordinates.length ∧
    (∀ p ∈ spaceC7.points.map Prod.snd, ∃ d,
      rengC7.spatial_index.metric.calculate
        (ConceptualPoint.new (analogicalTargetCoords ptC7a ptC7b ptC7c)
          ptC7c.dimension_map 99) p = .ok d) ∧
    (((∀ p ∈ spaceC7.points.map Prod.snd, ∀ d,
        rengC7.spatial_index.metric.calculate
          (ConceptualPoint.new (analogicalTargetCoords ptC7a ptC7b ptC7c)
            ptC7c.dimension_map 99) p = .ok d →
        1/10 ≤ d) →
      ∃ pt, (rengC7.analogical_reasoning ptC7a ptC7b ptC7c spaceC7 99).1 = .ok pt ∧
        pt.coordinates = List.zipWith (· + ·) ptC7c.coordinates
          (List.zipWith (· - ·) ptC7b.coordinates ptC7a.coordinates)) ∧
    ((∃ p ∈ spaceC7.points.map Prod.snd, ∃ d,
        rengC7.spatial_index.metric.calculate
          (ConceptualPoint.new (analogicalTargetCoords ptC7a ptC7b ptC7c)
            ptC7c.dimension_map 99) p = .ok d ∧
        d < 1/10) →
      ∃ p0 ∈ spaceC7.points.map Prod.snd, ∃ d0,
        (rengC7.analogical_reasoning ptC7a ptC7b ptC7c spaceC7 99).1 = .ok p0 ∧
        rengC7.spatial_index.metric.calculate
          (ConceptualPoint.new (analogicalTargetCoords ptC7a ptC7b ptC7c)
            ptC7c.dimension_map 99) p0 = .ok d0 ∧
        d0 < 1/10 ∧
        ∀ q ∈ spaceC7.points.map Prod.snd, ∀ dq,
          rengC7.spatial_index.metric.calculate
            (ConceptualPoint.new (analogicalTargetCoords ptC7a ptC7b ptC7c)
              ptC7c.dimension_map 99) q = .ok dq →
          d0 ≤ dq)) ∧
    List.zipWith (· + ·) ptC7c.coordinates
      (List.zipWith (· - ·) ptC7b.coordinates ptC7a.coordinates) = [4/5, 9/10] := by
  have hok : ∀ p ∈ spaceC7.points.map Prod.snd, ∃ d,
      rengC7.spatial_index.metric.calculate
        (ConceptualPoint.new (analogicalTargetCoords ptC7a ptC7b ptC7c)
          ptC7c.dimension_map 99) p = .ok d := by
    intro p hp
    simp only [spaceC7, List.map_cons, List.map_nil, List.mem_singleton] at hp
    subst hp
    exact ⟨17/10, by decide⟩
  exact ⟨by decide, by decide, hok,
    C7_analogical_offset_and_snap rengC7 ptC7a ptC7b ptC7c spaceC7 99
      (by decide) (by decide) hok,
    by decide⟩

end CSpace

